import Mathlib

/-!
Verification of the irix front-end capture/compress/transmit/store pipeline.

Shallow embedding of the TypeScript services:
* `StorageService` (stored-image cache): `addStoredImage`, `clearOldImages`,
  `generateFilename`;
* `ImageProcessorService.compressToWebP` (iterative quality search);
* `SocketService` (reconnect counter, connection state, `sendImageForAnalysis`);
* `ImageAnalysisService.handleAnalysisResult` (rolling statistics window).

Blobs are byte lists with a MIME type string; JS numbers used for quality
arithmetic are modelled exactly by rationals; timestamps are integers
(milliseconds).  Encoding a canvas is an oracle `encode : ℚ → ℕ` giving the
byte size produced at a given quality.
-/

namespace Irix

/-- A browser `Blob`: raw bytes plus a MIME type string. -/
structure Blob where
  bytes : List Nat
  type : String
deriving Repr, DecidableEq

/-- Record `StoredImage` from `plate-detection.interface.ts`: id, timestamp (ms),
filename, blob and optional detection metadata. -/
structure StoredImage where
  id : String
  timestamp : Int
  filename : String
  blob : Blob
  detectedPlates : Option (List String) := none
  vehicleColor : Option String := none
  vehicleDescription : Option String := none
deriving Repr, DecidableEq

/-- Constant `StorageService.MAX_STORED_IMAGES`. -/
def MAX_STORED_IMAGES : Nat := 100

/-- Method `StorageService.addStoredImage`: prepend the new record, then if the list
exceeds `MAX_STORED_IMAGES` drop everything past the first
`MAX_STORED_IMAGES` entries (`updatedImages.splice(this.MAX_STORED_IMAGES)`). -/
def addStoredImage (storedImage : StoredImage) (currentImages : List StoredImage) :
    List StoredImage :=
  if (storedImage :: currentImages).length > MAX_STORED_IMAGES then
    (storedImage :: currentImages).take MAX_STORED_IMAGES
  else
    storedImage :: currentImages

/-- The store contents after a sequence of `add` calls (performed in list
order) starting from the empty store. -/
def addAll (imgs : List StoredImage) : List StoredImage :=
  imgs.foldl (fun acc img => addStoredImage img acc) []

/-- A concrete stored image used to exercise the store on explicit inputs. -/
def mkImg (n : Nat) : StoredImage :=
  { id := "img", timestamp := (n : Int), filename := "f",
    blob := { bytes := [], type := "image/jpeg" } }

/-- Method `StorageService.clearOldImages`: with `cutoffTime = Date.now() - maxAge`,
keep exactly the records satisfying `img.timestamp > cutoffTime`
(`storedImages.filter(img => img.timestamp > cutoffTime)`). -/
def clearOldImages (now maxAge : Int) (storedImages : List StoredImage) :
    List StoredImage :=
  storedImages.filter (fun img => now - maxAge < img.timestamp)

/-- The claim's version of pruning, written from the spec's words: remove
exactly the records with `timestamp < now - maxAgeMs` (strict), i.e. keep
every record with `timestamp ≥ now - maxAgeMs`. -/
def pruneSpecStrict (now maxAge : Int) (storedImages : List StoredImage) :
    List StoredImage :=
  storedImages.filter (fun img => now - maxAge ≤ img.timestamp)

/-! Component `ImageProcessorService.compressToWebP`.

The canvas encoder is abstracted as an oracle `encode : ℚ → ℕ` mapping an
encode quality to the byte size of the produced `image/webp` blob
(deterministic for a fixed canvas).  JS float arithmetic on qualities is
modelled exactly by rationals.  `compressAux encode fuel q` returns the
qualities at which `tryCompressToFormat` is invoked, in order, where
`fuel = maxAttempts - attempts` is the number of loop iterations left; the
blob returned by the service is the one produced by the last encode of the
trace.  The loop body: encode at the current quality; return if
`size / 1024 ≤ 15` (`TARGET_SIZE_KB`); multiply the quality by `0.8`; return
the already-encoded blob if the new quality is `< 0.3`; otherwise iterate.
When the loop exhausts `maxAttempts` iterations, one further encode is
performed at the current (post-decay) quality. -/

/-- The encode-quality trace of the `while (attempts < maxAttempts)` loop of
`compressToWebP`, plus the final encode after the loop. -/
def compressAux (encode : ℚ → ℕ) : Nat → ℚ → List ℚ
  | 0, q => [q]
  | fuel + 1, q =>
      if (encode q : ℚ) / 1024 ≤ 15 then [q]
      else if q * (4/5) < 3/10 then [q]
      else q :: compressAux encode fuel (q * (4/5))

/-- Function `compressToWebP` with `maxAttempts = 5`: the qualities of every encode
performed for one compress call starting at quality `q0`. -/
def compressToWebP (encode : ℚ → ℕ) (q0 : ℚ) : List ℚ :=
  compressAux encode 5 q0

/-! Component `SocketService`.

State: the `connected : BehaviorSubject<boolean>` value and the
`reconnectAttempts` counter, with `maxReconnectAttempts = 5`.  The socket.io
handlers drive the state: the `connect` handler sets `connected := true` and
resets the counter to 0; the `disconnect` handler sets `connected := false`
and calls `attemptReconnect`, which — when attempts remain — increments the
counter and schedules `connectToSocket` after `2000 * reconnectAttempts` ms
(the value after the increment); otherwise it gives up. -/

def maxReconnectAttempts : Nat := 5

/-- The mutable fields of `SocketService` relevant to connection handling. -/
structure SockState where
  connected : Bool
  reconnectAttempts : Nat
deriving Repr, DecidableEq

/-- Fresh service: `connected = new BehaviorSubject<boolean>(false)`,
`reconnectAttempts = 0`. -/
def initialSockState : SockState :=
  { connected := false, reconnectAttempts := 0 }

/-- Method `attemptReconnect`: the updated state, and the backoff delay (ms) of the
scheduled `connectToSocket` call, `none` when attempts are exhausted. -/
def attemptReconnect (s : SockState) : SockState × Option Nat :=
  if s.reconnectAttempts < maxReconnectAttempts then
    ({ s with reconnectAttempts := s.reconnectAttempts + 1 },
      some (2000 * (s.reconnectAttempts + 1)))
  else
    (s, none)

/-- The connect handler registered with `socket.on`: `connected.next(true)` and
`reconnectAttempts = 0`. -/
def onConnect (s : SockState) : SockState :=
  { s with connected := true, reconnectAttempts := 0 }

/-- The disconnect handler registered with `socket.on`: `connected.next(false)` then
`attemptReconnect()`. -/
def onDisconnect (s : SockState) : SockState × Option Nat :=
  attemptReconnect { s with connected := false }

/-- The externally triggered socket.io events. -/
inductive SockEvent
  | connectEv
  | disconnectEv
deriving Repr, DecidableEq

/-- One handler invocation: the new state and any scheduled backoff delay. -/
def sockStep (s : SockState) (e : SockEvent) : SockState × Option Nat :=
  match e with
  | .connectEv => (onConnect s, none)
  | .disconnectEv => onDisconnect s

/-- The service state after a sequence of socket.io events. -/
def sockRun (events : List SockEvent) : SockState :=
  events.foldl (fun s e => (sockStep s e).1) initialSockState

/-- The `optimization` object of the `analyze-image` payload. -/
structure Optimization where
  originalFormat : String
  targetFormat : String
  forced : Bool
deriving Repr, DecidableEq

/-- The `analyze-image` wire payload built by `sendImageForAnalysis`. -/
structure AnalyzePayload where
  clientId : String
  data : List Nat
  format : String
  size : Nat
  optimization : Optimization
deriving Repr, DecidableEq

/-- A concrete client id used on explicit inputs. -/
def clientW : String := "c1"

/-- Method `sendImageForAnalysis`: observable effect of one call — the (possibly
empty) list of `analyze-image` messages emitted, the resulting service
state, and whether the not-connected error was reported
(the not-connected `console.error` log).  When the socket is not
connected the function returns immediately: nothing is emitted, the state is
untouched and the image is neither stored nor queued (the service has no
queue).  Otherwise the blob's bytes are read and a single payload is emitted
with `format` forced to `image/webp`, `size = imageData.length`, and
an `optimization` object holding the original format `imageBlob.type`, the
target format `image/webp` and `forced = true`. -/
def sendImageForAnalysis (clientId : String) (s : SockState) (imageBlob : Blob) :
    SockState × List AnalyzePayload × Bool :=
  if ¬ s.connected then
    (s, [], true)
  else
    (s,
      [{ clientId := clientId,
         data := imageBlob.bytes,
         format := "image/webp",
         size := imageBlob.bytes.length,
         optimization := { originalFormat := imageBlob.type,
                           targetFormat := "image/webp",
                           forced := true } }],
      false)

/-! Component `ImageAnalysisService.handleAnalysisResult`.

On each inbound result: `processingTime = Date.now() - stats.lastAnalysisTime`
is pushed onto `processingTimes`; if the array then holds more than 100
entries the oldest is shifted off; `averageProcessingTime` becomes the
arithmetic mean of the window; when `result.hasPlate` is truthy the plate
counter is incremented and `incrementPlateDetection()` fires.  All optional
fields are `Option`s; a missing `hasPlate` is falsy, and the handler is a
total function — it never raises on a malformed result. -/

/-- Interface `PlateDetectionResult` with its optional fields (absent = `none`). -/
structure PlateDetectionResult where
  type : String
  hasPlate : Option Bool := none
  requestHD : Option Bool := none
  plates : Option (List String) := none
  vehicleColor : Option String := none
  vehicleDescription : Option String := none
  confidence : Option ℚ := none
  processingTime : Option ℚ := none
deriving Repr, DecidableEq

/-- The `AnalysisStats` record of `ImageAnalysisService`. -/
structure AnalysisStats where
  imagesAnalyzed : Nat
  platesDetected : Nat
  averageProcessingTime : ℚ
  lastAnalysisTime : Int
  isAnalyzing : Bool
deriving Repr, DecidableEq

/-- The mutable fields of `ImageAnalysisService` used by the dispatcher. -/
structure AnalysisState where
  stats : AnalysisStats
  processingTimes : List Int
deriving Repr, DecidableEq

/-- The rolling window after one result: push the elapsed time, then
`shift()` the oldest entry off when the array exceeds 100 entries. -/
def analysisWindow (now : Int) (st : AnalysisState) : List Int :=
  if (st.processingTimes ++ [now - st.stats.lastAnalysisTime]).length > 100 then
    (st.processingTimes ++ [now - st.stats.lastAnalysisTime]).tail
  else
    st.processingTimes ++ [now - st.stats.lastAnalysisTime]

/-- Method `handleAnalysisResult`: the updated service state and whether the
plate-detected signal (`incrementPlateDetection`) fired.  `result.hasPlate`
is truthy only when it is `some true`. -/
def handleAnalysisResult (now : Int) (result : PlateDetectionResult)
    (st : AnalysisState) : AnalysisState × Bool :=
  ({ stats := { st.stats with
       averageProcessingTime :=
         ((analysisWindow now st).map (fun t => (t : ℚ))).sum /
           ((analysisWindow now st).length : ℚ),
       platesDetected := st.stats.platesDetected +
         (if result.hasPlate.getD false then 1 else 0) },
     processingTimes := analysisWindow now st },
   result.hasPlate.getD false)

/-- A concrete dispatcher state: one prior sample of 50 ms, last send at
t = 100. -/
def stW : AnalysisState :=
  { stats := { imagesAnalyzed := 1, platesDetected := 0,
               averageProcessingTime := 50, lastAnalysisTime := 100,
               isAnalyzing := true },
    processingTimes := [50] }

/-! Component `StorageService.generateFilename`.

`dateStr` is the `YYYYMMDD_HH-MM-SS` string the code renders from
`new Date(timestamp)` via browser `Date` APIs; that rendering is an
environment facility (it depends on the host timezone), so it is abstracted
as a parameter `formatDate : ℤ → String` — any fixed environment makes it a
pure function of the timestamp.  The plate component is
the plate list joined on underscores, stripped by the regex replace of
every character outside `a-zA-Z0-9`, upper-cased, then sliced to 20 chars;
note `[^a-zA-Z0-9]` is exactly `¬ Char.isAlphanum`. -/

/-- The separator used by the join of the plate list. -/
def plateSep : String := "_"

/-- The sanitized plate component of the filename. -/
def sanitizePlates (detectedPlates : List String) : String :=
  String.mk ((((String.intercalate plateSep detectedPlates).toList.filter
    Char.isAlphanum).map Char.toUpper).take 20)

/-- Method `generateFilename`: `IRIX_PLACA_<plates>_<date>.jpg` when at least one
plate is known, else `IRIX_VEHÍCULO_<date>.jpg`. -/
def generateFilename (formatDate : Int → String) (timestamp : Int)
    (detectedPlates : Option (List String)) : String :=
  match detectedPlates with
  | some plates =>
      if plates.length > 0 then
        "IRIX_PLACA_" ++ sanitizePlates plates ++ "_" ++ formatDate timestamp
          ++ ".jpg"
      else
        "IRIX_VEHÍCULO_" ++ formatDate timestamp ++ ".jpg"
  | none => "IRIX_VEHÍCULO_" ++ formatDate timestamp ++ ".jpg"

theorem addAll_append_one (imgs : List StoredImage) (a : StoredImage) :
    addAll (imgs ++ [a]) = addStoredImage a (addAll imgs) := by
  unfold addAll
  simp [List.foldl_append]

theorem addStoredImage_eq_take (img : StoredImage) (l : List StoredImage) :
    addStoredImage img l = (img :: l).take MAX_STORED_IMAGES := by
  unfold addStoredImage
  rcases Nat.lt_or_ge l.length MAX_STORED_IMAGES with hlt | hge
  · have h2 : ¬ (img :: l).length > MAX_STORED_IMAGES := by
      simp only [List.length_cons]; omega
    rw [if_neg h2, List.take_of_length_le]
    simp only [List.length_cons]; omega
  · have h2 : (img :: l).length > MAX_STORED_IMAGES := by
      simp only [List.length_cons]; omega
    rw [if_pos h2]

/-- Key closed form: after adding `imgs` in order to an empty store, the store
holds the first `MAX_STORED_IMAGES` elements of the reversed insertion order
(newest first). -/
theorem addAll_eq_reverse_take (imgs : List StoredImage) :
    addAll imgs = imgs.reverse.take MAX_STORED_IMAGES := by
  induction imgs using List.reverseRecOn with
  | nil => rfl
  | append_singleton xs a ih =>
      rw [addAll_append_one, ih, List.reverse_append]
      simp only [List.reverse_cons, List.reverse_nil, List.nil_append,
        List.singleton_append]
      rw [addStoredImage_eq_take a _]
      rw [show MAX_STORED_IMAGES = 99 + 1 from rfl]
      rw [List.take_succ_cons, List.take_succ_cons, List.take_take]
      norm_num

theorem mkImg_injective : Function.Injective mkImg := by
  intro a b h
  have : (a : Int) = (b : Int) := congrArg StoredImage.timestamp h
  exact_mod_cast this

/-- C1: for every sequence of `add` calls the record list never exceeds
`MAX_STORED_IMAGES` (100) and equals the reversed insertion order truncated to
100 (newest first); after inserting 101 distinct images the first-inserted
record is absent and exactly the 100 most recent remain, newest first
(eviction from the back). -/
theorem imageStore_bounded_newestFirst :
    (∀ imgs : List StoredImage,
        (addAll imgs).length ≤ MAX_STORED_IMAGES ∧
        addAll imgs = imgs.reverse.take MAX_STORED_IMAGES) ∧
    (∀ (first : StoredImage) (rest : List StoredImage),
        rest.length = MAX_STORED_IMAGES → (first :: rest).Nodup →
        first ∉ addAll (first :: rest) ∧ addAll (first :: rest) = rest.reverse) := by
  constructor
  · intro imgs
    refine ⟨?_, addAll_eq_reverse_take imgs⟩
    rw [addAll_eq_reverse_take]
    simp
  · intro first rest hlen hnodup
    have hstore : addAll (first :: rest) = rest.reverse := by
      rw [addAll_eq_reverse_take, List.reverse_cons,
        List.take_append_of_le_length (by simp [hlen]),
        List.take_of_length_le (by simp [hlen])]
    refine ⟨?_, hstore⟩
    rw [hstore, List.mem_reverse]
    exact (List.nodup_cons.mp hnodup).1

/-- Witness for C1 at a concrete input: 101 distinct images inserted in order;
the first-inserted image is evicted and the store is the last 100 insertions,
newest first. -/
theorem imageStore_bounded_newestFirst_witness :
    mkImg 0 ∉ addAll ((List.range 101).map mkImg) ∧
    addAll ((List.range 101).map mkImg) =
      ((List.range' 1 100).map mkImg).reverse := by
  have hsplit : (List.range 101).map mkImg = mkImg 0 :: (List.range' 1 100).map mkImg := by
    rfl
  have h := imageStore_bounded_newestFirst.2 (mkImg 0) ((List.range' 1 100).map mkImg)
    (by simp [MAX_STORED_IMAGES]) (by
      rw [← hsplit]
      exact (List.nodup_range 101).map mkImg_injective)
  rw [hsplit]
  exact h

/-- C3 counterexample: a record whose timestamp equals the cutoff exactly is
removed by the code (`timestamp > cutoff` fails) although the claim says only
records with `timestamp < cutoff` are removed.  With `now = 10`, `maxAge = 5`
(cutoff 5) and a single record at timestamp 5, the code returns the empty
list while the claim's pruning keeps the record. -/
theorem clearOldImages_boundary_counterexample :
    clearOldImages 10 5 [mkImg 5] ≠ pruneSpecStrict 10 5 [mkImg 5] ∧
    clearOldImages 10 5 [mkImg 5] = [] ∧
    pruneSpecStrict 10 5 [mkImg 5] = [mkImg 5] := by
  refine ⟨?_, ?_, ?_⟩ <;> decide

/-- C3 amended: `clearOldImages` removes exactly the records with
`timestamp ≤ now - maxAgeMs` (so a record dated exactly at the cutoff is also
removed) and leaves every other record untouched, in order; it is idempotent:
a second call with the same cutoff removes nothing further. -/
theorem clearOldImages_removes_le_idempotent (now maxAge : Int)
    (imgs : List StoredImage) :
    (clearOldImages now maxAge imgs).Sublist imgs ∧
    (∀ img ∈ clearOldImages now maxAge imgs, ¬ img.timestamp ≤ now - maxAge) ∧
    (∀ img, ¬ img.timestamp ≤ now - maxAge →
      (clearOldImages now maxAge imgs).count img = imgs.count img) ∧
    clearOldImages now maxAge (clearOldImages now maxAge imgs) =
      clearOldImages now maxAge imgs := by
  refine ⟨List.filter_sublist imgs, ?_, ?_, ?_⟩
  · intro img hmem
    have := List.of_mem_filter hmem
    simp only [decide_eq_true_eq] at this
    omega
  · intro img himg
    unfold clearOldImages
    rw [List.count_filter]
    simp only [decide_eq_true_eq]
    omega
  · unfold clearOldImages
    rw [List.filter_filter]
    exact List.filter_congr (fun img _ => by
      by_cases h : now - maxAge < img.timestamp <;> simp [h])

/-- Witness for C3 at a concrete input: cutoff 5, records at timestamps 7
(kept, count preserved) and 3 (removed); the second pass removes nothing. -/
theorem clearOldImages_removes_le_idempotent_witness :
    (clearOldImages 10 5 [mkImg 7, mkImg 3]).Sublist [mkImg 7, mkImg 3] ∧
    (¬ (mkImg 7).timestamp ≤ (10 : Int) - 5 →
      (clearOldImages 10 5 [mkImg 7, mkImg 3]).count (mkImg 7) =
        [mkImg 7, mkImg 3].count (mkImg 7)) ∧
    clearOldImages 10 5 (clearOldImages 10 5 [mkImg 7, mkImg 3]) =
      clearOldImages 10 5 [mkImg 7, mkImg 3] := by
  have h := clearOldImages_removes_le_idempotent 10 5 [mkImg 7, mkImg 3]
  exact ⟨h.1, fun _ => h.2.2.1 (mkImg 7) (by decide), h.2.2.2⟩

theorem compressAux_length (encode : ℚ → ℕ) :
    ∀ (fuel : Nat) (q : ℚ), (compressAux encode fuel q).length ≤ fuel + 1
  | 0, _ => by simp [compressAux]
  | fuel + 1, q => by
      unfold compressAux
      by_cases h1 : (encode q : ℚ) / 1024 ≤ 15
      · simp [h1]
      · by_cases h2 : q * (4/5) < 3/10
        · simp [h1, h2]
        · simp only [h1, h2, if_false, List.length_cons]
          have := compressAux_length encode fuel (q * (4/5))
          omega

theorem compressAux_mem_ge (encode : ℚ → ℕ) :
    ∀ (fuel : Nat) (q : ℚ), 3/10 ≤ q →
      ∀ x ∈ compressAux encode fuel q, 3/10 ≤ x
  | 0, q, hq => by simpa [compressAux] using hq
  | fuel + 1, q, hq => by
      unfold compressAux
      by_cases h1 : (encode q : ℚ) / 1024 ≤ 15
      · simpa [h1] using hq
      · by_cases h2 : q * (4/5) < 3/10
        · simpa [h1, h2] using hq
        · simp only [h1, h2, if_false, List.mem_cons]
          rintro x (rfl | hx)
          · exact hq
          · exact compressAux_mem_ge encode fuel (q * (4/5)) (not_lt.mp h2) x hx

theorem geom_one (q : ℚ) :
    (List.range 1).map (fun i => q * (4/5 : ℚ) ^ i) = [q] := by
  have h : List.range 1 = [0] := rfl
  rw [h]
  simp

theorem geom_cons (q : ℚ) (m : Nat) :
    (List.range (m + 2)).map (fun i => q * (4/5 : ℚ) ^ i) =
      q :: (List.range (m + 1)).map (fun i => q * (4/5) * (4/5 : ℚ) ^ i) := by
  have hfun : ((fun i => q * (4/5 : ℚ) ^ i) ∘ Nat.succ) =
      fun i => q * (4/5) * (4/5 : ℚ) ^ i := by
    funext i
    simp only [Function.comp_apply, pow_succ]
    ring
  rw [List.range_succ_eq_map, List.map_cons, List.map_map, hfun, pow_zero, mul_one]

/-- The trace of one compress call is an exact geometric prefix
`q, 0.8·q, 0.64·q, …`. -/
theorem compressAux_eq_geom (encode : ℚ → ℕ) :
    ∀ (fuel : Nat) (q : ℚ), ∃ m ≤ fuel,
      compressAux encode fuel q =
        (List.range (m + 1)).map (fun i => q * (4/5) ^ i)
  | 0, q => ⟨0, le_refl 0, by rw [compressAux]; exact (geom_one q).symm⟩
  | fuel + 1, q => by
      unfold compressAux
      by_cases h1 : (encode q : ℚ) / 1024 ≤ 15
      · exact ⟨0, by omega, by simp only [h1, if_true]; exact (geom_one q).symm⟩
      · by_cases h2 : q * (4/5) < 3/10
        · exact ⟨0, by omega, by simp only [h1, h2, if_false, if_true]; exact (geom_one q).symm⟩
        · obtain ⟨m, hm, heq⟩ := compressAux_eq_geom encode fuel (q * (4/5))
          refine ⟨m + 1, by omega, ?_⟩
          simp only [h1, h2, if_false, heq]
          exact (geom_cons q m).symm

theorem compressAux_succ_eq (encode : ℚ → ℕ) (fuel : Nat) (q : ℚ) :
    compressAux encode (fuel + 1) q =
      if (encode q : ℚ) / 1024 ≤ 15 then [q]
      else if q * (4/5) < 3/10 then [q]
      else q :: compressAux encode fuel (q * (4/5)) := rfl

theorem compressAux_zero_eq (encode : ℚ → ℕ) (q : ℚ) :
    compressAux encode 0 q = [q] := rfl

/-- Concrete run: an encoder that always produces 20000-byte blobs (over the
15 KB budget) at initial quality 1 is encoded 6 times, at the geometric
qualities `1, 0.8, 0.64, 0.512, 0.4096, 0.32768`. -/
theorem compress_trace_const :
    compressToWebP (fun _ => 20000) 1 =
      [1, 4/5, 16/25, 64/125, 256/625, 1024/3125] := by
  unfold compressToWebP
  rw [show (5 : Nat) = 4 + 1 from rfl, compressAux_succ_eq,
    if_neg (by norm_num), if_neg (by norm_num)]
  rw [show (4 : Nat) = 3 + 1 from rfl, compressAux_succ_eq,
    if_neg (by norm_num), if_neg (by norm_num)]
  rw [show (3 : Nat) = 2 + 1 from rfl, compressAux_succ_eq,
    if_neg (by norm_num), if_neg (by norm_num)]
  rw [show (2 : Nat) = 1 + 1 from rfl, compressAux_succ_eq,
    if_neg (by norm_num), if_neg (by norm_num)]
  rw [show (1 : Nat) = 0 + 1 from rfl, compressAux_succ_eq,
    if_neg (by norm_num), if_neg (by norm_num)]
  rw [compressAux_zero_eq]
  norm_num

/-- C2 counterexample: with an encoder that always produces 20000-byte blobs
(over the 15 KB budget) and initial quality 1, the quality search performs
6 encodes, not at most 5: the 5 loop iterations all fail the budget, each
post-decay quality stays at or above 0.3 (the 5th is 0.32768), and the code
after the loop performs one further encode. -/
theorem compress_six_encodes_counterexample :
    (compressToWebP (fun _ => 20000) 1).length = 6 ∧
    ¬ (compressToWebP (fun _ => 20000) 1).length ≤ 5 := by
  rw [compress_trace_const]
  exact ⟨rfl, by norm_num⟩

/-- C2 amended: every compress call performs at most 6 total encodes (at most
`maxAttempts = 5` inside the quality loop plus one final encode when the loop
exhausts its attempts); and when the initial quality is at least the floor
0.3, no encode is ever performed at a quality strictly below the floor. -/
theorem compress_encode_bound_and_floor (encode : ℚ → ℕ) (q0 : ℚ)
    (h0 : 3/10 ≤ q0) :
    (compressToWebP encode q0).length ≤ 6 ∧
    ∀ q ∈ compressToWebP encode q0, 3/10 ≤ q :=
  ⟨compressAux_length encode 5 q0, compressAux_mem_ge encode 5 q0 h0⟩

/-- Witness for the amended C2 at a concrete input: the always-oversized
encoder at initial quality 1. -/
theorem compress_encode_bound_and_floor_witness :
    (3/10 : ℚ) ≤ 1 ∧
    (compressToWebP (fun _ => 20000) 1).length ≤ 6 ∧
    ∀ q ∈ compressToWebP (fun _ => 20000) 1, (3/10 : ℚ) ≤ q := by
  have h := compress_encode_bound_and_floor (fun _ => 20000) 1 (by norm_num)
  exact ⟨by norm_num, h.1, h.2⟩

/-- C6: for one compress call with initial quality `q0 ≥ 0`, the quality of
the k-th encode attempt (0-indexed `k`, i.e. the (k+1)-st attempt) equals
`q0 · 0.8^k` exactly, and the attempt qualities are monotonically
non-increasing until the search terminates. -/
theorem compress_quality_geometric (encode : ℚ → ℕ) (q0 : ℚ) (h0 : 0 ≤ q0) :
    (∀ k, k < (compressToWebP encode q0).length →
        (compressToWebP encode q0)[k]? = some (q0 * (4/5) ^ k)) ∧
    (∀ (j k : Nat) (qj qk : ℚ), j ≤ k →
        (compressToWebP encode q0)[j]? = some qj →
        (compressToWebP encode q0)[k]? = some qk → qk ≤ qj) := by
  obtain ⟨m, -, heq⟩ := compressAux_eq_geom encode 5 q0
  have hget : ∀ k, k < (compressToWebP encode q0).length →
      (compressToWebP encode q0)[k]? = some (q0 * (4/5) ^ k) := by
    intro k hk
    unfold compressToWebP at hk ⊢
    rw [heq] at hk ⊢
    rw [List.getElem?_map, List.getElem?_range (by simpa using hk)]
    rfl
  refine ⟨hget, ?_⟩
  intro j k qj qk hjk hj hk
  have hklen : k < (compressToWebP encode q0).length := by
    by_contra hcon
    rw [List.getElem?_eq_none (le_of_not_lt hcon)] at hk
    exact Option.noConfusion hk
  have hjlen : j < (compressToWebP encode q0).length := lt_of_le_of_lt hjk hklen
  rw [hget k hklen] at hk
  rw [hget j hjlen] at hj
  obtain rfl : qk = q0 * (4/5) ^ k := (Option.some.inj hk).symm
  obtain rfl : qj = q0 * (4/5) ^ j := (Option.some.inj hj).symm
  exact mul_le_mul_of_nonneg_left
    (pow_le_pow_of_le_one (by norm_num) (by norm_num) hjk) h0

/-- Witness for C6 at a concrete input: the always-oversized encoder at
initial quality 1; the 6th encode is at `0.8^5 = 0.32768` and the 6th
attempt's quality is below the 4th's. -/
theorem compress_quality_geometric_witness :
    (compressToWebP (fun _ => 20000) 1)[5]? = some (1 * (4/5) ^ 5) ∧
    (1 * (4/5 : ℚ) ^ 5) ≤ (1 * (4/5 : ℚ) ^ 3) := by
  have h := compress_quality_geometric (fun _ => 20000) 1 (by norm_num)
  have hlen : (compressToWebP (fun _ => 20000) 1).length = 6 := by
    rw [compress_trace_const]
    rfl
  have h5 := h.1 5 (by rw [hlen]; norm_num)
  have h3 := h.1 3 (by rw [hlen]; norm_num)
  exact ⟨h5, h.2 3 5 (1 * (4/5) ^ 3) (1 * (4/5) ^ 5) (by norm_num) h3 h5⟩

theorem sockStep_attempts_le (s : SockState) (e : SockEvent)
    (h : s.reconnectAttempts ≤ maxReconnectAttempts) :
    (sockStep s e).1.reconnectAttempts ≤ maxReconnectAttempts := by
  cases e with
  | connectEv => simp [sockStep, onConnect]
  | disconnectEv =>
      unfold sockStep onDisconnect attemptReconnect
      by_cases hc : s.reconnectAttempts < maxReconnectAttempts <;> simp [hc] <;> omega

theorem sockRun_attempts_le_aux (events : List SockEvent) :
    ∀ s : SockState, s.reconnectAttempts ≤ maxReconnectAttempts →
      (events.foldl (fun s e => (sockStep s e).1) s).reconnectAttempts ≤
        maxReconnectAttempts := by
  induction events with
  | nil => intro s hs; simpa using hs
  | cons e rest ih =>
      intro s hs
      exact ih _ (sockStep_attempts_le s e hs)

/-- C4: over every event sequence the reconnect counter never exceeds
`maxReconnectAttempts` (5); the Nth reconnect attempt (fired when the counter
stands at `N - 1 < 5`) schedules `connectToSocket` after exactly `2000 × N`
ms and leaves the counter at `N`; a successful `connect` resets the counter
to 0. -/
theorem reconnect_bounded_linear_backoff :
    (∀ events : List SockEvent,
        (sockRun events).reconnectAttempts ≤ maxReconnectAttempts) ∧
    (∀ (s : SockState) (n : Nat), s.reconnectAttempts + 1 = n →
        n ≤ maxReconnectAttempts →
        (attemptReconnect s).2 = some (2000 * n) ∧
        (attemptReconnect s).1.reconnectAttempts = n) ∧
    (∀ s : SockState, (onConnect s).reconnectAttempts = 0 ∧
        (onConnect s).connected = true) := by
  refine ⟨?_, ?_, ?_⟩
  · intro events
    exact sockRun_attempts_le_aux events initialSockState (by simp [initialSockState])
  · intro s n hn hle
    unfold attemptReconnect
    rw [if_pos (by omega)]
    exact ⟨by rw [hn], by simpa using hn⟩
  · intro s
    exact ⟨rfl, rfl⟩

/-- Witness for C4 at concrete inputs: seven straight disconnects leave the
counter at 5 (≤ 5); the 3rd attempt (counter at 2) schedules a 6000 ms
backoff; `connect` resets a counter of 4 to 0. -/
theorem reconnect_bounded_linear_backoff_witness :
    (sockRun [SockEvent.disconnectEv, SockEvent.disconnectEv,
      SockEvent.disconnectEv, SockEvent.disconnectEv, SockEvent.disconnectEv,
      SockEvent.disconnectEv,
      SockEvent.disconnectEv]).reconnectAttempts ≤ maxReconnectAttempts ∧
    (attemptReconnect { connected := false, reconnectAttempts := 2 }).2 =
      some 6000 ∧
    (onConnect { connected := false, reconnectAttempts := 4 }).reconnectAttempts
      = 0 := by
  have h := reconnect_bounded_linear_backoff
  refine ⟨h.1 _, ?_, (h.2.2 _).1⟩
  have := h.2.1 { connected := false, reconnectAttempts := 2 } 3 rfl (by decide)
  simpa using this.1

/-- C5 counterexample: the service's connection state is the boolean
`connected`; there is no intermediate `connecting` value, and the `connect`
handler moves the state from disconnected to connected in a single step —
the very transition the claim says never occurs.  Concretely, from the
initial (disconnected) state the `connect` event yields a connected state
directly. -/
theorem connectionState_direct_transition_counterexample :
    initialSockState.connected = false ∧
    (sockStep initialSockState SockEvent.connectEv).1.connected = true := by
  exact ⟨rfl, rfl⟩

/-- C5 amended: the connection state is two-valued (`connected : Bool`);
every `connect` event sets it to connected — including directly from the
disconnected state — and every `disconnect` event sets it to disconnected;
no third `connecting` state exists in the service. -/
theorem connectionState_boolean_transitions (s : SockState) :
    (sockStep s SockEvent.connectEv).1.connected = true ∧
    (sockStep s SockEvent.disconnectEv).1.connected = false := by
  refine ⟨rfl, ?_⟩
  unfold sockStep onDisconnect attemptReconnect
  by_cases hc : s.reconnectAttempts < maxReconnectAttempts <;> simp [hc]

/-- C8: a send attempted while the channel is not connected is a no-op that
reports failure: no message is emitted, the service state is unchanged (in
particular nothing is queued for later — the service holds no queue), and
the not-connected error is reported. -/
theorem send_dropped_when_disconnected (clientId : String) (s : SockState)
    (b : Blob) (h : s.connected = false) :
    (sendImageForAnalysis clientId s b).2.1 = [] ∧
    (sendImageForAnalysis clientId s b).1 = s ∧
    (sendImageForAnalysis clientId s b).2.2 = true := by
  unfold sendImageForAnalysis
  rw [if_pos (by simp [h])]
  exact ⟨rfl, rfl, rfl⟩

/-- Witness for C8 at a concrete input: a disconnected service dropping a
3-byte JPEG blob. -/
theorem send_dropped_when_disconnected_witness :
    (sendImageForAnalysis clientW initialSockState
      { bytes := [1, 2, 3], type := "image/jpeg" }).2.1 = [] ∧
    (sendImageForAnalysis clientW initialSockState
      { bytes := [1, 2, 3], type := "image/jpeg" }).1 = initialSockState ∧
    (sendImageForAnalysis clientW initialSockState
      { bytes := [1, 2, 3], type := "image/jpeg" }).2.2 = true :=
  send_dropped_when_disconnected clientW initialSockState
    { bytes := [1, 2, 3], type := "image/jpeg" } rfl

/-- C10: every successful send emits exactly one message whose `format` is
`'image/webp'` and whose `optimization.forced` is `true`, unconditionally —
whatever the blob's real MIME type (e.g. a JPEG produced by the compressor's
fallback) — while `optimization.originalFormat` records the blob's real type
and `size` equals the byte length of `data`. -/
theorem send_forces_webp_format (clientId : String) (s : SockState) (b : Blob)
    (h : s.connected = true) :
    ∃ p : AnalyzePayload,
      (sendImageForAnalysis clientId s b).2.1 = [p] ∧
      p.format = "image/webp" ∧
      p.optimization.forced = true ∧
      p.optimization.targetFormat = "image/webp" ∧
      p.optimization.originalFormat = b.type ∧
      p.data = b.bytes ∧
      p.size = p.data.length := by
  unfold sendImageForAnalysis
  rw [if_neg (by simp [h])]
  exact ⟨_, rfl, rfl, rfl, rfl, rfl, rfl, rfl⟩

/-- Witness for C10 at a concrete input: a connected service sending a blob
whose actual MIME type is `image/jpeg`; the wire message still declares
`image/webp` with `forced = true`, while `originalFormat` is `image/jpeg`. -/
theorem send_forces_webp_format_witness :
    ∃ p : AnalyzePayload,
      (sendImageForAnalysis clientW { connected := true, reconnectAttempts := 0 }
        { bytes := [7, 8], type := "image/jpeg" }).2.1 = [p] ∧
      p.format = "image/webp" ∧
      p.optimization.forced = true ∧
      p.optimization.targetFormat = "image/webp" ∧
      p.optimization.originalFormat = "image/jpeg" ∧
      p.data = [7, 8] ∧
      p.size = p.data.length :=
  send_forces_webp_format clientW { connected := true, reconnectAttempts := 0 }
    { bytes := [7, 8], type := "image/jpeg" } rfl

/-- C9: for every inbound result, the elapsed time is appended to a rolling
window that never exceeds 100 entries (the oldest entry is dropped on
overflow, all others kept in order), the average processing time becomes the
arithmetic mean of the window, and a result whose `hasPlate` field is absent
is treated as `hasPlate = false`: the plate counter is unchanged and no
plate-detected signal fires.  (The handler is a total function of its
inputs: it cannot raise on a malformed result.) -/
theorem handleAnalysisResult_window_mean_malformed (now : Int)
    (result : PlateDetectionResult) (st : AnalysisState)
    (hlen : st.processingTimes.length ≤ 100) :
    ((handleAnalysisResult now result st).1.processingTimes.length ≤ 100) ∧
    (st.processingTimes.length < 100 →
      (handleAnalysisResult now result st).1.processingTimes =
        st.processingTimes ++ [now - st.stats.lastAnalysisTime]) ∧
    (st.processingTimes.length = 100 →
      (handleAnalysisResult now result st).1.processingTimes =
        st.processingTimes.tail ++ [now - st.stats.lastAnalysisTime]) ∧
    ((handleAnalysisResult now result st).1.stats.averageProcessingTime =
      (((handleAnalysisResult now result st).1.processingTimes.map
          (fun t => (t : ℚ))).sum) /
        (((handleAnalysisResult now result st).1.processingTimes.length : ℚ))) ∧
    (result.hasPlate = none →
      (handleAnalysisResult now result st).1.stats.platesDetected =
        st.stats.platesDetected ∧
      (handleAnalysisResult now result st).2 = false) := by
  have hwin : (handleAnalysisResult now result st).1.processingTimes =
      analysisWindow now st := rfl
  by_cases h : st.processingTimes.length = 100
  · have hne : st.processingTimes ≠ [] := by
      intro hnil
      rw [hnil] at h
      simp at h
    obtain ⟨a, l, hal⟩ := List.exists_cons_of_ne_nil hne
    have hllen : l.length = 99 := by
      rw [hal] at h
      simp only [List.length_cons] at h
      omega
    have hgt : (st.processingTimes ++ [now - st.stats.lastAnalysisTime]).length > 100 := by
      simp [h]
    have hwindow : analysisWindow now st =
        st.processingTimes.tail ++ [now - st.stats.lastAnalysisTime] := by
      unfold analysisWindow
      rw [if_pos hgt, hal]
      rfl
    refine ⟨?_, fun hlt => absurd hlt (by omega),
      fun _ => by rw [hwin, hwindow], rfl, fun hp => ?_⟩
    · rw [hwin, hwindow, hal]
      simp only [List.tail_cons, List.length_append, List.length_cons,
        List.length_nil, hllen]
      omega
    · unfold handleAnalysisResult
      rw [hp]
      exact ⟨by simp, rfl⟩
  · have hlt : st.processingTimes.length < 100 := by omega
    have hngt : ¬ (st.processingTimes ++ [now - st.stats.lastAnalysisTime]).length > 100 := by
      simp only [List.length_append, List.length_singleton]
      omega
    have hwindow : analysisWindow now st =
        st.processingTimes ++ [now - st.stats.lastAnalysisTime] := by
      unfold analysisWindow
      rw [if_neg hngt]
    refine ⟨?_, fun _ => by rw [hwin, hwindow], fun heq => ?_, rfl, fun hp => ?_⟩
    · rw [hwin, hwindow]
      simp only [List.length_append, List.length_singleton]
      omega
    · omega
    · unfold handleAnalysisResult
      rw [hp]
      exact ⟨by simp, rfl⟩

/-- Witness for C9 at a concrete input: a malformed result carrying only a
`type` field (no `hasPlate`), received at t = 160: the window becomes
`[50, 60]`, the plate counter stays 0 and no signal fires. -/
theorem handleAnalysisResult_window_mean_malformed_witness :
    ((handleAnalysisResult 160 { type := "analysis_result" } stW).1.processingTimes
      = [50, 60]) ∧
    ((handleAnalysisResult 160 { type := "analysis_result" } stW).1.stats.platesDetected
      = 0) ∧
    ((handleAnalysisResult 160 { type := "analysis_result" } stW).2 = false) := by
  have h := handleAnalysisResult_window_mean_malformed 160
    { type := "analysis_result" } stW (by simp [stW])
  have h1 := h.2.1 (by simp [stW])
  have h2 := h.2.2.2.2 rfl
  refine ⟨?_, h2.1.trans rfl, h2.2⟩
  rw [h1]
  simp [stW]

theorem uint32_le_iff {a b : UInt32} : a ≤ b ↔ a.toNat ≤ b.toNat := Iff.rfl

theorem char_toNat_ofNat (n : Nat) (h : n.isValidChar) :
    (Char.ofNat n).toNat = n := by
  unfold Char.ofNat
  rw [dif_pos h]
  rfl

theorem char_isUpper_iff (c : Char) :
    c.isUpper = true ↔ 65 ≤ c.toNat ∧ c.toNat ≤ 90 := by
  unfold Char.isUpper
  rw [Bool.and_eq_true, decide_eq_true_eq, decide_eq_true_eq, ge_iff_le,
    uint32_le_iff, uint32_le_iff]
  exact Iff.rfl

theorem char_isLower_iff (c : Char) :
    c.isLower = true ↔ 97 ≤ c.toNat ∧ c.toNat ≤ 122 := by
  unfold Char.isLower
  rw [Bool.and_eq_true, decide_eq_true_eq, decide_eq_true_eq, ge_iff_le,
    uint32_le_iff, uint32_le_iff]
  exact Iff.rfl

theorem char_isDigit_iff (c : Char) :
    c.isDigit = true ↔ 48 ≤ c.toNat ∧ c.toNat ≤ 57 := by
  unfold Char.isDigit
  rw [Bool.and_eq_true, decide_eq_true_eq, decide_eq_true_eq, ge_iff_le,
    uint32_le_iff, uint32_le_iff]
  exact Iff.rfl

theorem char_isAlphanum_iff (c : Char) :
    c.isAlphanum = true ↔
      (48 ≤ c.toNat ∧ c.toNat ≤ 57) ∨ (65 ≤ c.toNat ∧ c.toNat ≤ 90) ∨
      (97 ≤ c.toNat ∧ c.toNat ≤ 122) := by
  unfold Char.isAlphanum Char.isAlpha
  rw [Bool.or_eq_true, Bool.or_eq_true, char_isUpper_iff, char_isLower_iff,
    char_isDigit_iff]
  tauto

theorem char_toUpper_of_lower (c : Char) (h : 97 ≤ c.toNat)
    (h2 : c.toNat ≤ 122) : c.toUpper.toNat = c.toNat - 32 := by
  unfold Char.toUpper
  rw [if_pos ⟨h, h2⟩]
  exact char_toNat_ofNat _ (Or.inl (by omega))

theorem char_toUpper_of_not_lower (c : Char)
    (h : ¬ (97 ≤ c.toNat ∧ c.toNat ≤ 122)) : c.toUpper = c := by
  unfold Char.toUpper
  rw [if_neg h]

/-- Uppercasing via `Char.toUpper` keeps alphanumeric characters alphanumeric and is
idempotent on them. -/
theorem char_toUpper_alphanum (c : Char) (h : c.isAlphanum = true) :
    c.toUpper.isAlphanum = true ∧ c.toUpper.toUpper = c.toUpper := by
  rw [char_isAlphanum_iff] at h
  by_cases hl : 97 ≤ c.toNat ∧ c.toNat ≤ 122
  · have ht := char_toUpper_of_lower c hl.1 hl.2
    constructor
    · rw [char_isAlphanum_iff, ht]
      omega
    · exact char_toUpper_of_not_lower _ (by omega)
  · rw [char_toUpper_of_not_lower c hl, char_toUpper_of_not_lower c hl]
    exact ⟨by rw [char_isAlphanum_iff]; tauto, rfl⟩

/-- C7: for a fixed date-rendering environment, filename generation is a pure
function of `(timestamp, detectedPlates)` — equal inputs give the identical
filename string — and the plate-derived component of the filename is
sanitized before insertion: every one of its characters is alphanumeric and
uppercase-stable (so no non-alphanumeric character of any input plate ever
reaches the output through the plate component), and it holds at most 20
characters. -/
theorem generateFilename_pure_sanitized (formatDate : Int → String) :
    (∀ (ts₁ ts₂ : Int) (ps₁ ps₂ : Option (List String)), ts₁ = ts₂ → ps₁ = ps₂ →
        generateFilename formatDate ts₁ ps₁ =
          generateFilename formatDate ts₂ ps₂) ∧
    (∀ ps : List String,
        (∀ c ∈ (sanitizePlates ps).toList, c.isAlphanum = true) ∧
        (∀ c ∈ (sanitizePlates ps).toList, c.toUpper = c) ∧
        (sanitizePlates ps).length ≤ 20) := by
  constructor
  · intro ts₁ ts₂ ps₁ ps₂ hts hps
    rw [hts, hps]
  · intro ps
    have hmem : ∀ c ∈ (sanitizePlates ps).toList,
        ∃ c₀ : Char, c₀.isAlphanum = true ∧ c = c₀.toUpper := by
      intro c hc
      unfold sanitizePlates at hc
      have hc' := List.mem_of_mem_take hc
      obtain ⟨c₀, hc₀, rfl⟩ := List.mem_map.mp hc'
      exact ⟨c₀, List.of_mem_filter hc₀, rfl⟩
    refine ⟨?_, ?_, ?_⟩
    · intro c hc
      obtain ⟨c₀, h₀, rfl⟩ := hmem c hc
      exact (char_toUpper_alphanum c₀ h₀).1
    · intro c hc
      obtain ⟨c₀, h₀, rfl⟩ := hmem c hc
      exact (char_toUpper_alphanum c₀ h₀).2
    · unfold sanitizePlates
      show (List.take 20 _).length ≤ 20
      rw [List.length_take]
      omega

/-- Witness for C7 at a concrete input: plates `["ab-12!", "xyz"]` sanitize
to `AB12XYZ`; its member `B` is alphanumeric and uppercase-stable, the
component is within 20 characters, and regenerating the filename for the
same timestamp and plates yields the identical string. -/
theorem generateFilename_pure_sanitized_witness :
    generateFilename (fun _ => "20250101_00-00-00") 5 (some ["ab-12!", "xyz"]) =
      generateFilename (fun _ => "20250101_00-00-00") 5 (some ["ab-12!", "xyz"]) ∧
    ('B'.isAlphanum = true ∧ 'B'.toUpper = 'B') ∧
    (sanitizePlates ["ab-12!", "xyz"]).length ≤ 20 := by
  have h := generateFilename_pure_sanitized (fun _ => "20250101_00-00-00")
  have hs := h.2 ["ab-12!", "xyz"]
  exact ⟨h.1 5 5 (some ["ab-12!", "xyz"]) (some ["ab-12!", "xyz"]) rfl rfl,
    ⟨hs.1 'B' (by decide), hs.2.1 'B' (by decide)⟩, hs.2.2⟩

end Irix
